import Mathlib

/-!
Verification development for the multimodal ingestion repository.

We shallowly embed the incremental state-tracking and multi-source
extraction coordination layer of the repository:

* `PipelineSM` — `src/RAG/src/utils/state_manager.py` (per-file stage tracker),
* `LedgerSM` — `src/RAG/managers/stateManager.py` (processed-item ledger),
* `MgrCM` — `src/RAG/managers/connectorManager.py` (extraction coordinator),
* `Conn` — `src/RAG/connectors/` (metadata types, local/SQL connectors),
* `Orch` — `src/RAG/manager/connector_manager.py` (queue orchestrator).

Python dicts with string keys are modelled as association lists
(`List (String × α)`) with first-match lookup and in-place update;
`datetime.now()` is modelled by passing explicit clock values; the float
progress percentages are modelled as exact rationals (for the values that
occur — multiples of 20 and their means — IEEE doubles are exact too).
-/

set_option autoImplicit false

/-! ## Association-list helpers (model of Python `dict` with string keys) -/

/-- First-match lookup, mirroring `d[k]` / `d.get(k)` on a Python dict. -/
def lookupA {α : Type} : List (String × α) → String → Option α
  | [], _ => none
  | (k', v) :: rest, k => if k' = k then some v else lookupA rest k

/-- In-place update `d[k] = v`: replaces the first binding of `k`,
appends at the end when `k` is absent (dict insertion order). -/
def setA {α : Type} : List (String × α) → String → α → List (String × α)
  | [], k, v => [(k, v)]
  | (k', v') :: rest, k, v =>
      if k' = k then (k, v) :: rest else (k', v') :: setA rest k v

/-! ## `PipelineSM`: the per-file stage tracker
(`src/RAG/src/utils/state_manager.py`, class `StateManager`). -/

namespace PipelineSM

/-- One value of the `stages` mapping:
`{"success": bool, "timestamp": ..., "error"?: ...}`.
Timestamps are abstract clock values. -/
structure StageInfo where
  success : Bool
  timestamp : Nat
  error : Option String := none
  deriving DecidableEq, Repr

/-- Information recorded for one run under `pipeline_metadata.runs`. -/
structure RunInfo where
  started_at : Nat
  completed_at : Option Nat := none
  status : String
  deriving DecidableEq, Repr

/-- One value of `self.state`: a Python dict that may carry per-file keys
(`started_at`, `stages`, `metadata`, `last_modified`) and, for the reserved
`pipeline_metadata` entry, run-bookkeeping keys (`runs`, `current_run`).
Absent keys are modelled by `none` / `[]`, matching the `.get` defaults that
the source applies at every read. -/
structure PEntry where
  started_at : Option Nat := none
  stages : List (String × StageInfo) := []
  metadata : List (String × String) := []
  last_modified : Option Nat := none
  runs : List (String × RunInfo) := []
  current_run : Option String := none
  deriving DecidableEq, Repr

/-- `self.state`: dict `file_id -> entry`. -/
abbrev PState : Type := List (String × PEntry)

/-- Result of `get_file_progress`. For an unknown file the source returns a
dict with only `file_id`, `status`, `progress`; the stage-count keys are then
absent, modelled with `none`. -/
structure FileProgress where
  file_id : String
  status : String
  progress : ℚ
  completed_stages : Option Nat := none
  total_stages : Option Nat := none
  deriving DecidableEq, Repr

/-- The ordered `expected_stages` list of `get_file_progress`. -/
def expected_stages : List String :=
  ["read", "processed", "chunked", "embedded", "loaded"]

/-- `stage_info.get("success", False)` after `stages.get(stage, {})`. -/
def stageOk (stages : List (String × StageInfo)) (s : String) : Bool :=
  match lookupA stages s with
  | some info => info.success
  | none => false

/-- The counting loop of `get_file_progress`: walks the expected stages in
order; a successful stage counts and the walk continues; a recorded but
unsuccessful stage stops the walk and is reported as the failed stage; an
unrecorded stage stops the walk with no failed stage. -/
def countStages : List String → List (String × StageInfo) → Nat × Option String
  | [], _ => (0, none)
  | s :: rest, stages =>
      match lookupA stages s with
      | some info =>
          if info.success then
            let r := countStages rest stages
            (r.1 + 1, r.2)
          else (0, some s)
      | none => (0, none)

/-- `StateManager.get_file_state`. -/
def get_file_state (st : PState) (file_id : String) : Option PEntry :=
  lookupA st file_id

/-- `StateManager.get_file_progress`. -/
def get_file_progress (st : PState) (file_id : String) : FileProgress :=
  match get_file_state st file_id with
  | none => { file_id := file_id, status := "unknown", progress := 0 }
  | some e =>
      let r := countStages expected_stages e.stages
      let completed := r.1
      let failed := r.2
      let progress : ℚ := ((completed : ℚ) / (expected_stages.length : ℚ)) * 100
      let status :=
        match failed with
        | some s => "failed_at_" ++ s
        | none =>
            if completed = expected_stages.length then "completed"
            else if completed = 0 then "not_started"
            else "in_progress"
      { file_id := file_id, status := status, progress := progress,
        completed_stages := some completed,
        total_stages := some expected_stages.length }

/-- `StateManager.update_file_state` (persistence is modelled as the returned
state; `now` stands for `datetime.now()`). -/
def update_file_state (st : PState) (file_id stage : String) (success : Bool)
    (error : Option String) (metadata : List (String × String)) (now : Nat) : PState :=
  let e :=
    match lookupA st file_id with
    | some e => e
    | none => { started_at := some now : PEntry }
  let info : StageInfo := { success := success, timestamp := now, error := error }
  let e := { e with stages := setA e.stages stage info }
  let e :=
    if metadata.isEmpty then e
    else { e with metadata := metadata.foldl (fun m p => setA m p.1 p.2) e.metadata }
  let e := { e with last_modified := some now }
  setA st file_id e

/-- Result of `get_pipeline_summary`. -/
structure Summary where
  total_files : Nat
  completed_files : Nat
  failed_files : Nat
  in_progress_files : Nat
  not_started_files : Nat
  overall_progress : ℚ
  deriving DecidableEq, Repr

/-- Model of Python `str.startswith("failed")` used by the summary. -/
def failedStatus (s : String) : Bool :=
  "failed".data.isPrefixOf s.data

/-- `StateManager.get_pipeline_summary`: iterates over every key of
`self.state` (including `pipeline_metadata` when present). -/
def get_pipeline_summary (st : PState) : Summary :=
  let total := st.length
  let statuses := st.map (fun p => (get_file_progress st p.1).status)
  let completed := (statuses.filter (fun s => s = "completed")).length
  let failed := (statuses.filter (fun s => failedStatus s)).length
  let in_progress := (statuses.filter (fun s => s = "in_progress")).length
  let not_started := (statuses.filter (fun s => s = "not_started")).length
  let overall : ℚ :=
    if 0 < total then
      ((st.map (fun p => (get_file_progress st p.1).progress)).sum) / (total : ℚ)
    else 0
  { total_files := total, completed_files := completed, failed_files := failed,
    in_progress_files := in_progress, not_started_files := not_started,
    overall_progress := overall }

/-- `StateManager.mark_pipeline_started` (with an explicit `run_id` and
clock value): ensures the reserved `pipeline_metadata` entry exists in the
same `self.state` dict as the per-file records, records the run as running
and sets `current_run`. -/
def mark_pipeline_started (st : PState) (run_id : String) (now : Nat) : PState :=
  let e :=
    match lookupA st "pipeline_metadata" with
    | some e => e
    | none => {}
  let e := { e with runs := setA e.runs run_id { started_at := now, status := "running" },
                    current_run := some run_id }
  setA st "pipeline_metadata" e

/-- The `pipeline_metadata` entry created by a first `mark_pipeline_started`
(statement-side shorthand). -/
def pmEntry (run_id : String) (now : Nat) : PEntry :=
  { runs := [(run_id, { started_at := now, status := "running" })],
    current_run := some run_id }

end PipelineSM

/-! ## `Conn`: connector data model (`src/RAG/connectors/connector_base.py`)
with the `datetime.isoformat` / `datetime.fromisoformat` encoding used by
`FileMetadata.to_dict` / `from_dict`. -/

namespace Conn

/-- Model of a Python `datetime` value (naive, microsecond resolution),
as produced by `datetime.fromtimestamp` for file modification times. -/
structure DateTime where
  year : Nat
  month : Nat
  day : Nat
  hour : Nat
  minute : Nat
  second : Nat
  usec : Nat
  deriving DecidableEq, Repr

/-- Field ranges of a real `datetime` value (the widths `isoformat` pads to). -/
def DateTime.WF (d : DateTime) : Prop :=
  d.year < 10 ^ 4 ∧ d.month < 10 ^ 2 ∧ d.day < 10 ^ 2 ∧ d.hour < 10 ^ 2 ∧
    d.minute < 10 ^ 2 ∧ d.second < 10 ^ 2 ∧ d.usec < 10 ^ 6

instance (d : DateTime) : Decidable d.WF := by
  unfold DateTime.WF; infer_instance

/-- The ASCII digit character for `d < 10`. -/
def digitChar (d : Nat) : Char := Char.ofNat (48 + d)

/-- Zero-padded fixed-width decimal rendering, most significant digit first:
`renderPad k n` is the last `k` decimal digits of `n`. -/
def renderPad : Nat → Nat → List Char
  | 0, _ => []
  | k + 1, n => digitChar ((n / 10 ^ k) % 10) :: renderPad k n

/-- Inverse of `digitChar` on ASCII digits. -/
def charToDigit (c : Char) : Option Nat :=
  if 48 ≤ c.toNat ∧ c.toNat ≤ 57 then some (c.toNat - 48) else none

/-- Reads exactly `k` digit characters, accumulating their value. -/
def parseFixed : Nat → Nat → List Char → Option (Nat × List Char)
  | 0, acc, s => some (acc, s)
  | _ + 1, _, [] => none
  | k + 1, acc, c :: s =>
      match charToDigit c with
      | some d => parseFixed k (acc * 10 + d) s
      | none => none

/-- Expects a single literal separator character. -/
def parseSep (c : Char) : List Char → Option (List Char)
  | [] => none
  | c' :: s => if c' = c then some s else none

/-- `datetime.isoformat()`: `YYYY-MM-DDTHH:MM:SS`, with `.ffffff` appended
exactly when the microsecond field is nonzero. -/
def DateTime.isoformat (d : DateTime) : List Char :=
  renderPad 4 d.year ++ '-' :: renderPad 2 d.month ++ '-' :: renderPad 2 d.day ++
    'T' :: renderPad 2 d.hour ++ ':' :: renderPad 2 d.minute ++ ':' :: renderPad 2 d.second ++
    (if d.usec = 0 then [] else '.' :: renderPad 6 d.usec)

/-- `datetime.fromisoformat` restricted to the shapes `isoformat` emits
(date, `T`, time, optional fractional seconds); any other input is a parse
error (Python raises `ValueError`). -/
def DateTime.fromisoformat (s : List Char) : Option DateTime :=
  match parseFixed 4 0 s with
  | none => none
  | some (y, s) =>
  match parseSep '-' s with
  | none => none
  | some s =>
  match parseFixed 2 0 s with
  | none => none
  | some (mo, s) =>
  match parseSep '-' s with
  | none => none
  | some s =>
  match parseFixed 2 0 s with
  | none => none
  | some (da, s) =>
  match parseSep 'T' s with
  | none => none
  | some s =>
  match parseFixed 2 0 s with
  | none => none
  | some (h, s) =>
  match parseSep ':' s with
  | none => none
  | some s =>
  match parseFixed 2 0 s with
  | none => none
  | some (mi, s) =>
  match parseSep ':' s with
  | none => none
  | some s =>
  match parseFixed 2 0 s with
  | none => none
  | some (sec, s) =>
  match s with
  | [] => some ⟨y, mo, da, h, mi, sec, 0⟩
  | '.' :: rest =>
      match parseFixed 6 0 rest with
      | some (u, []) => some ⟨y, mo, da, h, mi, sec, u⟩
      | _ => none
  | _ => none

/-- `FileType` enum (`connector_base.py`). -/
inductive FileType where
  | CSV | JSON | EXCEL | PDF | TEXT | OTHER
  deriving DecidableEq, Repr

/-- `FileType.value`. -/
def FileType.value : FileType → String
  | .CSV => "csv"
  | .JSON => "json"
  | .EXCEL => "xlsx"
  | .PDF => "pdf"
  | .TEXT => "txt"
  | .OTHER => "other"

/-- The by-value enum lookup `FileType(s)`; `none` models the `ValueError`
Python raises for an unknown value. -/
def FileType.ofValue (s : String) : Option FileType :=
  [FileType.CSV, .JSON, .EXCEL, .PDF, .TEXT, .OTHER].find? (fun t => t.value = s)

/-- Opaque values stored in `additional_metadata` dicts (strings, booleans,
lists of strings are the shapes the connectors produce); `to_dict` and
`from_dict` copy them verbatim. -/
inductive MetaVal where
  | s (v : String)
  | b (v : Bool)
  | sl (v : List String)
  deriving DecidableEq, Repr

/-- `FileMetadata` (`connector_base.py`). -/
structure FileMetadata where
  id : String
  name : String
  path : String
  size : Int
  type : FileType
  last_modified : DateTime
  source : String
  additional_metadata : List (String × MetaVal) := []
  checksum : Option String := none
  deriving DecidableEq, Repr

/-- The dict produced by `FileMetadata.to_dict` (all keys written; the keys
read back through `.get` are `Option`-valued to model possible absence in a
hand-made dict). -/
structure FileDict where
  id : String
  name : String
  path : String
  size : Int
  type : String
  last_modified : List Char
  source : String
  additional_metadata : Option (List (String × MetaVal))
  checksum : Option String
  deriving DecidableEq, Repr

/-- `FileMetadata.to_dict`. -/
def FileMetadata.to_dict (m : FileMetadata) : FileDict :=
  { id := m.id, name := m.name, path := m.path, size := m.size,
    type := m.type.value, last_modified := m.last_modified.isoformat,
    source := m.source, additional_metadata := some m.additional_metadata,
    checksum := m.checksum }

/-- `FileMetadata.from_dict`; `none` models the exceptions Python raises for
an unknown enum value or an unparsable datetime string. -/
def FileMetadata.from_dict (d : FileDict) : Option FileMetadata := do
  let t ← FileType.ofValue d.type
  let lm ← DateTime.fromisoformat d.last_modified
  some { id := d.id, name := d.name, path := d.path, size := d.size,
         type := t, last_modified := lm, source := d.source,
         additional_metadata := d.additional_metadata.getD [],
         checksum := d.checksum }

/-- Scalar values a `last_processed_key` can hold (an integer key or an
ISO-formatted timestamp string). -/
inductive SqlKey where
  | intKey (n : Int)
  | strKey (s : String)
  deriving DecidableEq, Repr

/-- `TableMetadata` (`connector_base.py`). -/
structure TableMetadata where
  id : String
  name : String
  schema : String
  source : String
  last_processed_key : Option SqlKey := none
  columns : List String := []
  row_count : Option Int := none
  additional_metadata : List (String × MetaVal) := []
  deriving DecidableEq, Repr

/-- The dict produced by `TableMetadata.to_dict`. -/
structure TableDict where
  id : String
  name : String
  schema : String
  source : String
  last_processed_key : Option SqlKey
  columns : Option (List String)
  row_count : Option Int
  additional_metadata : Option (List (String × MetaVal))
  deriving DecidableEq, Repr

/-- `TableMetadata.to_dict`. -/
def TableMetadata.to_dict (m : TableMetadata) : TableDict :=
  { id := m.id, name := m.name, schema := m.schema, source := m.source,
    last_processed_key := m.last_processed_key, columns := some m.columns,
    row_count := m.row_count, additional_metadata := some m.additional_metadata }

/-- `TableMetadata.from_dict` (all reads are plain copies or `.get` with a
default, so it is total). -/
def TableMetadata.from_dict (d : TableDict) : TableMetadata :=
  { id := d.id, name := d.name, schema := d.schema, source := d.source,
    last_processed_key := d.last_processed_key, columns := d.columns.getD [],
    row_count := d.row_count, additional_metadata := d.additional_metadata.getD [] }

/-! ### Local file connector (`src/RAG/connectors/local_file_connector.py`) -/

/-- The in-memory ledger `self._processed_files` is a Python set of ids;
modelled as a duplicate-free list. -/
abbrev LocalLedger : Type := List String

/-- `LocalFileConnector.mark_as_processed`: `self._processed_files.add(item_id)`
followed by a save. Set insertion keeps one copy. -/
def localMarkAsProcessed (ledger : LocalLedger) (item_id : String) : LocalLedger :=
  if item_id ∈ ledger then ledger else ledger ++ [item_id]

/-- What a persisted backing file can look like when a store loads at
startup: missing, present but unreadable/not valid JSON, or readable with
parsed payload `v`. -/
inductive FileState (α : Type) where
  | absent
  | corrupt
  | ok (v : α)
  deriving DecidableEq, Repr

/-- `LocalFileConnector._load_processed_files`: wraps `json.load` in
`try/except`, reinitialising to the empty set on a corrupt file; total. -/
def localLoadProcessedFiles (f : FileState LocalLedger) : LocalLedger :=
  match f with
  | .absent => []
  | .corrupt => []
  | .ok v => v

/-! ### SQL connector (`src/RAG/connectors/sql_connector.py`) -/

/-- One row of a table, seen through the incremental query: the value of the
chosen incremental column (a comparable key) plus the remaining columns,
which the fetch only passes through. -/
structure SqlRow where
  key : Int
  payload : List (String × String) := []
  deriving DecidableEq, Repr

/-- Ascending insertion used to model the SQL engine's
`ORDER BY <incremental_col>` (any stable ascending sort realises it). -/
def orderedInsert (r : SqlRow) : List SqlRow → List SqlRow
  | [] => [r]
  | r' :: rest => if r.key ≤ r'.key then r :: r' :: rest else r' :: orderedInsert r rest

/-- `ORDER BY <incremental_col>` (ascending, the SQL default). -/
def orderByKey : List SqlRow → List SqlRow
  | [] => []
  | r :: rest => orderedInsert r (orderByKey rest)

/-- The query contract of `SQLConnector.get_new_rows`:
`SELECT * FROM table [WHERE col > last_cursor] ORDER BY col LIMIT batch_size`,
evaluated against the table contents `tbl`. -/
def sqlQuery (tbl : List SqlRow) (last_cursor : Option Int) (batch_size : Nat) :
    List SqlRow :=
  let filtered :=
    match last_cursor with
    | some c => tbl.filter (fun r => c < r.key)
    | none => tbl
  (orderByKey filtered).take batch_size

/-- `SQLConnector.get_new_rows` (lines 287–312): executes the query and
returns the batch together with `rows[-1][incremental_col.name]`, the
cursor value, or `none` for an empty batch. -/
def get_new_rows (tbl : List SqlRow) (last_cursor : Option Int) (batch_size : Nat) :
    List SqlRow × Option Int :=
  let rows := sqlQuery tbl last_cursor batch_size
  (rows, rows.getLast?.map (fun r => r.key))

/-- Per-table persisted state of the SQL connector
(`last_processed_key`, `last_processed_time`). -/
structure SqlTableState where
  last_processed_key : Option Conn.SqlKey := none
  last_processed_time : Option Nat := none
  deriving DecidableEq, Repr

/-- `self._state` of the SQL connector: dict `table_id -> state`. -/
abbrev SqlState : Type := List (String × SqlTableState)

/-- `SQLConnector.mark_as_processed(item_id, last_key)`: ensures an entry,
stores `last_key` when given, and always refreshes `last_processed_time`. -/
def sqlMarkAsProcessed (st : SqlState) (item_id : String)
    (last_key : Option Conn.SqlKey) (now : Nat) : SqlState :=
  let e :=
    match lookupA st item_id with
    | some e => e
    | none => {}
  let e :=
    match last_key with
    | some k => { e with last_processed_key := some k }
    | none => e
  setA st item_id { e with last_processed_time := some now }

/-- The ordering relation `ORDER BY <incremental_col>` sorts by. -/
def rowLE (a b : SqlRow) : Prop := a.key ≤ b.key

end Conn

/-! ## `Orch`: the queue orchestrator
(`src/RAG/manager/connector_manager.py`, class `ConnectorManager`). -/

namespace Orch

/-- An item returned by a connector `scan()`
(`Union[FileMetadata, TableMetadata]`). -/
inductive Item where
  | file (m : Conn.FileMetadata)
  | table (m : Conn.TableMetadata)
  deriving DecidableEq, Repr

/-- `item.id` on a scanned item. -/
def Item.id : Item → String
  | .file m => m.id
  | .table m => m.id

/-- A queue entry: the serialized dict form `item.to_dict()` kept in
`self.queue`. -/
inductive QEntry where
  | file (d : Conn.FileDict)
  | table (d : Conn.TableDict)
  deriving DecidableEq, Repr

/-- `item['id']` on a queue dict (both dict shapes carry the key). -/
def QEntry.id : QEntry → String
  | .file d => d.id
  | .table d => d.id

/-- `item.get('source')` on a queue dict. -/
def QEntry.source : QEntry → String
  | .file d => d.source
  | .table d => d.source

/-- `item.to_dict()`. -/
def Item.to_dict : Item → QEntry
  | .file m => .file m.to_dict
  | .table m => .table m.to_dict

/-- ASCII lowercasing of one character (`str.lower()` on the connector
source names, which are ASCII class names). -/
def lowerChar (c : Char) : Char :=
  if 'A' ≤ c ∧ c ≤ 'Z' then Char.ofNat (c.toNat + 32) else c

/-- `str.replace('connector', '')`: removes every (non-overlapping,
left-to-right) occurrence of `"connector"`. Structural recursion on a fuel
bound by the input length (each step consumes at least one character, so the
fuel never runs out before the input does). -/
def dropConnectorGo : Nat → List Char → List Char
  | 0, l => l
  | _, [] => []
  | fuel + 1, c :: rest =>
      if ("connector".data).isPrefixOf (c :: rest) then
        dropConnectorGo fuel (rest.drop 8)
      else c :: dropConnectorGo fuel rest

/-- `str.replace('connector', '')` on a character list. -/
def dropConnectorWord (l : List Char) : List Char :=
  dropConnectorGo l.length l

/-- `source.lower().replace('connector', '')`, the naming convention used to
resolve a queue entry's `source` to a registered connector key. -/
def resolveName (source : String) : String :=
  ⟨dropConnectorWord (source.data.map lowerChar)⟩

/-- A registered connector, as the orchestrator's `mark_as_processed` can
affect it: the local-file and Google-Drive connectors keep a set-of-ids
ledger, the SQL connector keeps per-table cursor state. -/
inductive Connector where
  | localFile (ledger : Conn.LocalLedger)
  | googleDrive (ledger : Conn.LocalLedger)
  | sql (st : Conn.SqlState)
  deriving DecidableEq, Repr

/-- Whether `isinstance(connector, SQLConnector)` holds. -/
def Connector.isSql : Connector → Bool
  | .sql _ => true
  | _ => false

/-- Delegation `connector.mark_as_processed(item_id[, last_key])`. -/
def Connector.markAsProcessed (c : Connector) (item_id : String)
    (last_key : Option Conn.SqlKey) (now : Nat) : Connector :=
  match c with
  | .localFile ledger => .localFile (Conn.localMarkAsProcessed ledger item_id)
  | .googleDrive ledger => .googleDrive (Conn.localMarkAsProcessed ledger item_id)
  | .sql st => .sql (Conn.sqlMarkAsProcessed st item_id last_key now)

/-- The orchestrator state: `self.queue` and the registered
`self.connectors` dict. -/
structure OrchState where
  queue : List QEntry
  connectors : List (String × Connector)
  deriving DecidableEq, Repr

/-- The enqueue step of `ConnectorManager.scan_and_queue` (lines 147–159):
`items` is the aggregated `scan_all()` result; ids already present in the
queue are filtered out, the remaining items are appended in dict form, and
the count of added items is returned. -/
def scan_and_queue (queue : List QEntry) (items : List Item) :
    List QEntry × Nat :=
  let queued_ids := queue.map QEntry.id
  let new_items := items.filter (fun item => item.id ∉ queued_ids)
  (queue ++ new_items.map Item.to_dict, new_items.length)

/-- Removal of the first queue entry with the given id, mirroring the
`for i, item in enumerate(self.queue): ... self.queue.pop(i)` loop. -/
def popFirst (queue : List QEntry) (item_id : String) :
    Option (QEntry × List QEntry) :=
  match queue with
  | [] => none
  | e :: rest =>
      if e.id = item_id then some (e, rest)
      else (popFirst rest item_id).map (fun p => (p.1, e :: p.2))

/-- `ConnectorManager.mark_as_processed(item_id, last_key)`. Returns the new
state plus the log lines emitted (`warning`/`info`); the function is total:
every failure path is reported through the log. The queue entry is popped
and the shrunk queue saved *before* the source connector is resolved. -/
def mark_as_processed (st : OrchState) (item_id : String)
    (last_key : Option Conn.SqlKey) (now : Nat) : OrchState × List String :=
  match popFirst st.queue item_id with
  | none => (st, ["warning: Item " ++ item_id ++ " not found in queue"])
  | some (entry, queue') =>
      let st := { st with queue := queue' }
      if entry.source = "" then
        (st, ["warning: No source specified for item " ++ item_id])
      else
      let connector_name := resolveName entry.source
      match lookupA st.connectors connector_name with
      | some c =>
          let c' :=
            if c.isSql ∧ last_key.isSome then c.markAsProcessed item_id last_key now
            else c.markAsProcessed item_id none now
          ({ st with connectors := setA st.connectors connector_name c' }, [])
      | none =>
          (st, ["warning: Source connector '" ++ connector_name ++
                "' not found for item " ++ item_id])

/-- `ConnectorManager._load_queue`: `try/except` around `json.load`,
reinitialising to the empty queue on invalid JSON; total. -/
def load_queue (f : Conn.FileState (List QEntry)) : List QEntry :=
  match f with
  | .absent => []
  | .corrupt => []
  | .ok v => v

end Orch

/-! ## `LedgerSM`: the processed-item ledger
(`src/RAG/managers/stateManager.py`, class `StateManager`). -/

namespace LedgerSM

/-- One ledger entry: `{"first_processed": <iso timestamp>, "metadata": {...}}`.
Timestamps are abstract clock values. -/
structure LedgerEntry where
  first_processed : Nat
  metadata : List (String × String) := []
  deriving DecidableEq, Repr

/-- `self.state`: `{"last_run": ..., "processed_items": {source: {id: entry}}}`. -/
structure MState where
  last_run : Option Nat := none
  processed_items : List (String × List (String × LedgerEntry)) := []
  deriving DecidableEq, Repr

/-- The initial state built when the backing file does not exist. -/
def initState : MState :=
  { last_run := none,
    processed_items :=
      [("sql_database", []), ("local_filesystem", []), ("google_drive", [])] }

/-- `StateManager._load_state`: `json.load` is *not* wrapped in `try/except`,
so a present-but-corrupt file propagates the parse exception (modelled as
`Except.error`); only a missing file falls back to the initial state. -/
def load_state (f : Conn.FileState MState) : Except String MState :=
  match f with
  | .absent => .ok initState
  | .corrupt => .error "json.JSONDecodeError"
  | .ok v => .ok v

/-- `StateManager.is_item_processed`:
`item_id in self.state["processed_items"].get(source, {})`. -/
def is_item_processed (st : MState) (source item_id : String) : Bool :=
  match lookupA st.processed_items source with
  | some inner => ((lookupA inner item_id).isSome : Bool)
  | none => false

/-- `StateManager.mark_item_processed`: ensures the per-source dict and then
*unconditionally* assigns `{"first_processed": now, "metadata": ...}` for the
id, followed by a save. -/
def mark_item_processed (st : MState) (source item_id : String)
    (metadata : Option (List (String × String))) (now : Nat) : MState :=
  let inner :=
    match lookupA st.processed_items source with
    | some inner => inner
    | none => []
  let inner := setA inner item_id { first_processed := now, metadata := metadata.getD [] }
  { st with processed_items := setA st.processed_items source inner }

/-- `StateManager.update_last_run_time`. -/
def update_last_run_time (st : MState) (now : Nat) : MState :=
  { st with last_run := some now }

end LedgerSM

/-! ## `MgrCM`: the extraction coordinator
(`src/RAG/managers/connectorManager.py`, class `ConnectorManager`). -/

namespace MgrCM

/-- A document returned by a connector's extraction method:
`{"content": ..., "metadata": {...}}` with string-valued metadata. -/
structure MDoc where
  content : String
  metadata : List (String × String) := []
  deriving DecidableEq, Repr

/-- Stand-in for `hashlib.md5(content).hexdigest()`, the default item id for
a document from an unrecognised source (the real digest is an external
library call; only its functional, deterministic nature matters here). -/
def md5Hex (content : String) : String := "md5:" ++ content

/-- The item id `_filter_processed_items` derives for one document, by
source: `table_id = f"{table}_{id}"` for `sql_database`, the file hash for
`local_filesystem`, the provider file id for `google_drive`, and the content
digest otherwise. `none` models the `KeyError` path (required metadata
missing), which skips the document with a warning. -/
def itemIdFor (source : String) (doc : MDoc) : Option String :=
  if source = "sql_database" then do
    let t ← lookupA doc.metadata "table"
    let i ← lookupA doc.metadata "id"
    some (t ++ "_" ++ i)
  else if source = "local_filesystem" then lookupA doc.metadata "hash"
  else if source = "google_drive" then lookupA doc.metadata "file_id"
  else some (md5Hex doc.content)

/-- `ConnectorManager._filter_processed_items`: keeps the documents whose
derived id is not yet in the ledger, annotating each kept document with
`metadata['item_id']`; documents with missing metadata are skipped. -/
def filter_processed_items (st : LedgerSM.MState) (source : String)
    (docs : List MDoc) : List MDoc :=
  docs.filterMap (fun doc =>
    match itemIdFor source doc with
    | none => none
    | some item_id =>
        if LedgerSM.is_item_processed st source item_id then none
        else some { doc with metadata := setA doc.metadata "item_id" item_id })

/-- `ConnectorManager._mark_documents_processed`: marks every document that
carries `source` and `item_id` metadata; a document missing either key is
skipped with a warning (`KeyError` handler). -/
def mark_documents_processed (st : LedgerSM.MState) (docs : List MDoc)
    (now : Nat) : LedgerSM.MState :=
  docs.foldl (fun st doc =>
    match lookupA doc.metadata "source", lookupA doc.metadata "item_id" with
    | some source, some item_id =>
        LedgerSM.mark_item_processed st source item_id none now
    | _, _ => st) st

/-- A registered connector of this manager, reduced to the data the
coordination layer consumes: its registry name, whether it exposes an
`extract_data` method (the `hasattr` probe on the fallback branch), and the
documents its extraction calls return for this run (the network/filesystem
side is an external collaborator). For `sql_database` the list is the
concatenation over `list_tables()` of `extract_table_data`. -/
structure MConn where
  name : String
  hasExtractData : Bool := true
  docs : List MDoc := []
  deriving DecidableEq, Repr

/-- The extraction branch of `extract_all` for one connector: the three
known source names use their dedicated methods; an unknown name falls back
to `extract_data` when present and contributes nothing otherwise. All
branches filter against the ledger. -/
def extractFrom (st : LedgerSM.MState) (c : MConn) : List MDoc :=
  if c.name = "sql_database" ∨ c.name = "local_filesystem" ∨ c.name = "google_drive" then
    filter_processed_items st c.name c.docs
  else if c.hasExtractData then
    filter_processed_items st c.name c.docs
  else []

/-- `ConnectorManager.extract_all`: aggregates the filtered documents of all
registered connectors, then — in the same call, before returning — marks
every extracted document as processed in the ledger and advances
`last_run`, provided anything was extracted. -/
def extract_all (st : LedgerSM.MState) (connectors : List MConn)
    (now : Nat) : List MDoc × LedgerSM.MState :=
  let all_documents := connectors.foldl (fun acc c => acc ++ extractFrom st c) []
  if all_documents.isEmpty then (all_documents, st)
  else
    let st := mark_documents_processed st all_documents now
    let st := LedgerSM.update_last_run_time st now
    (all_documents, st)

end MgrCM

/-- `StateManager._load_state` of the per-file stage tracker
(`src/RAG/src/utils/state_manager.py`): `json.load` wrapped in `try/except`,
reinitialising to the empty state on a corrupt file; total. -/
def PipelineSM.load_state (f : Conn.FileState PipelineSM.PState) : PipelineSM.PState :=
  match f with
  | .absent => []
  | .corrupt => []
  | .ok v => v

/-- Statement-side characterization of sequential stage counting: the number
of *leading* expected stages recorded as successes (a success after a gap or
failure lies outside this prefix and cannot contribute). -/
def PipelineSM.seqCompleted (stages : List (String × PipelineSM.StageInfo)) : Nat :=
  (PipelineSM.expected_stages.takeWhile (PipelineSM.stageOk stages)).length

/-- The first expected stage (in order) not recorded as a success, if any. -/
def PipelineSM.firstPending (stages : List (String × PipelineSM.StageInfo)) : Option String :=
  (PipelineSM.expected_stages.drop (PipelineSM.seqCompleted stages)).head?

/-! ### Concrete fixtures used by witnesses and counterexamples -/

/-- Recorded stages `read: success, processed: failed, embedded: success`. -/
def exStagesC4 : List (String × PipelineSM.StageInfo) :=
  [("read", ⟨true, 1, none⟩), ("processed", ⟨false, 2, some "boom"⟩),
   ("embedded", ⟨true, 3, none⟩)]

/-- A tracker state holding one file with the stages of `exStagesC4`. -/
def exStateC4 : PipelineSM.PState :=
  [("f", { started_at := some 0, stages := exStagesC4 })]

/-- Recorded stages exactly `read: success, chunk: success`. -/
def exStagesC3 : List (String × PipelineSM.StageInfo) :=
  [("read", ⟨true, 1, none⟩), ("chunk", ⟨true, 2, none⟩)]

/-- A tracker state holding one file with the stages of `exStagesC3`. -/
def exStateC3 : PipelineSM.PState :=
  [("f", { started_at := some 0, stages := exStagesC3 })]

/-- A scanned file item with id `"dup"`. -/
def exItemC5 : Orch.Item :=
  .file { id := "dup", name := "a.txt", path := "/data/a.txt", size := 1,
          type := .TEXT, last_modified := ⟨2024, 1, 1, 0, 0, 0, 0⟩,
          source := "LocalFileConnector" }

/-- A scanned table item with id `"public.orders"`. -/
def exItemC8 : Orch.Item :=
  .table { id := "public.orders", name := "orders", schema := "public",
           source := "SQLConnector" }

/-- An orchestrator state whose queue holds the dict of `exItemC5` — an
entry whose `source` (`"LocalFileConnector"`) resolves to `"localfile"`,
which is not among the registered connector keys (`"local_file"`). -/
def exOrchC1 : Orch.OrchState :=
  { queue := [Orch.Item.to_dict exItemC5],
    connectors := [("local_file", .localFile [])] }

/-- A fresh local-filesystem document with hash `"h1"`. -/
def exDocC2 : MgrCM.MDoc :=
  { content := "x", metadata := [("hash", "h1"), ("source", "local_filesystem")] }

/-! ## Helper lemmas -/

theorem lookupA_setA_self {α : Type} (l : List (String × α)) (k : String) (v : α) :
    lookupA (setA l k v) k = some v := by
  induction l with
  | nil => simp [setA, lookupA]
  | cons p rest ih =>
      obtain ⟨k', v'⟩ := p
      by_cases h : k' = k
      · simp [setA, h, lookupA]
      · simp [setA, h, lookupA, ih]

theorem lookupA_setA_ne {α : Type} (l : List (String × α)) (k k' : String) (v : α)
    (h : k ≠ k') : lookupA (setA l k v) k' = lookupA l k' := by
  induction l with
  | nil => simp [setA, lookupA, h]
  | cons p rest ih =>
      obtain ⟨k0, v0⟩ := p
      by_cases h0 : k0 = k
      · subst h0
        simp [setA, lookupA, h]
      · simp [setA, h0, lookupA, ih]

theorem setA_of_lookupA_none {α : Type} (l : List (String × α)) (k : String) (v : α)
    (h : lookupA l k = none) : setA l k v = l ++ [(k, v)] := by
  induction l with
  | nil => simp [setA]
  | cons p rest ih =>
      obtain ⟨k0, v0⟩ := p
      by_cases h0 : k0 = k
      · simp [lookupA, h0] at h
      · simp [lookupA, h0] at h
        simp [setA, h0, ih h]

theorem lookupA_append_left {α : Type} (l l' : List (String × α)) (k : String)
    (h : lookupA l k ≠ none) : lookupA (l ++ l') k = lookupA l k := by
  induction l with
  | nil => simp [lookupA] at h
  | cons p rest ih =>
      obtain ⟨k0, v0⟩ := p
      by_cases h0 : k0 = k
      · simp [lookupA, h0]
      · simp [lookupA, h0] at h ⊢
        exact ih h

theorem lookupA_append_of_none {α : Type} (l l' : List (String × α)) (k : String)
    (h : lookupA l k = none) : lookupA (l ++ l') k = lookupA l' k := by
  induction l with
  | nil => simp
  | cons p rest ih =>
      obtain ⟨k0, v0⟩ := p
      by_cases h0 : k0 = k
      · simp [lookupA, h0] at h
      · simp [lookupA, h0] at h ⊢
        exact ih h

theorem lookupA_none_of_not_mem_keys {α : Type} (l : List (String × α)) (k : String)
    (h : k ∉ l.map Prod.fst) : lookupA l k = none := by
  induction l with
  | nil => rfl
  | cons p rest ih =>
      obtain ⟨k0, v0⟩ := p
      simp only [List.map_cons, List.mem_cons, not_or] at h
      have hne : k0 ≠ k := fun hh => h.1 hh.symm
      simp [lookupA, hne, ih h.2]

theorem mem_keys_of_lookupA_some {α : Type} (l : List (String × α)) (k : String) {v : α}
    (h : lookupA l k = some v) : k ∈ l.map Prod.fst := by
  induction l with
  | nil => simp [lookupA] at h
  | cons p rest ih =>
      obtain ⟨k0, v0⟩ := p
      by_cases h0 : k0 = k
      · simp [h0]
      · simp [lookupA, h0] at h
        simp [ih h]
namespace Conn

theorem charToDigit_digitChar {d : Nat} (h : d < 10) :
    charToDigit (digitChar d) = some d := by
  interval_cases d <;> decide

theorem parseFixed_renderPad (k : Nat) :
    ∀ (acc n : Nat) (rest : List Char),
      parseFixed k acc (renderPad k n ++ rest) =
        some (acc * 10 ^ k + n % 10 ^ k, rest) := by
  induction k with
  | zero => intro acc n rest; simp [renderPad, parseFixed, Nat.mod_one]
  | succ k ih =>
      intro acc n rest
      have hd : (n / 10 ^ k) % 10 < 10 := Nat.mod_lt _ (by norm_num)
      rw [renderPad]
      simp only [List.cons_append, parseFixed, charToDigit_digitChar hd,
        List.append_eq, ih]
      have hmod : n % 10 ^ (k + 1) = n % 10 ^ k + 10 ^ k * (n / 10 ^ k % 10) := by
        rw [pow_succ, Nat.mod_mul]
      rw [hmod, pow_succ]
      congr 1
      ring_nf

theorem parseFixed_renderPad_of_lt {k n : Nat} (h : n < 10 ^ k) (rest : List Char) :
    parseFixed k 0 (renderPad k n ++ rest) = some (n, rest) := by
  rw [parseFixed_renderPad, Nat.mod_eq_of_lt h, Nat.zero_mul, Nat.zero_add]

theorem parseFixed_renderPad_nil {k n : Nat} (h : n < 10 ^ k) :
    parseFixed k 0 (renderPad k n) = some (n, []) := by
  have := parseFixed_renderPad_of_lt h []
  simpa using this

theorem fromisoformat_isoformat (d : DateTime) (h : d.WF) :
    DateTime.fromisoformat d.isoformat = some d := by
  obtain ⟨y, mo, da, hh, mi, se, u⟩ := d
  obtain ⟨h1, h2, h3, h4, h5, h6, h7⟩ := h
  by_cases hu : u = 0
  · simp [DateTime.isoformat, DateTime.fromisoformat, hu, parseSep,
      parseFixed_renderPad_of_lt h1, parseFixed_renderPad_of_lt h2,
      parseFixed_renderPad_of_lt h3, parseFixed_renderPad_of_lt h4,
      parseFixed_renderPad_of_lt h5, parseFixed_renderPad_nil h6]
  · simp [DateTime.isoformat, DateTime.fromisoformat, hu, parseSep,
      parseFixed_renderPad_of_lt h1, parseFixed_renderPad_of_lt h2,
      parseFixed_renderPad_of_lt h3, parseFixed_renderPad_of_lt h4,
      parseFixed_renderPad_of_lt h5, parseFixed_renderPad_of_lt h6,
      parseFixed_renderPad_nil h7]

theorem FileType.ofValue_value (t : FileType) : FileType.ofValue t.value = some t := by
  cases t <;> rfl

end Conn
/-- **C9**: for every well-formed item metadata value `m` (`FileMetadata` or
`TableMetadata`), `from_dict (to_dict m)` equals `m`: every field round-trips
through the persisted dict form, including the enum-valued `type` field
serialized as its string value and datetime fields serialized as ISO-8601
strings. Well-formedness is the field-range condition of a real `datetime`
value. -/
theorem metadata_dict_roundtrip (m : Conn.FileMetadata) (t : Conn.TableMetadata)
    (h : m.last_modified.WF) :
    Conn.FileMetadata.from_dict m.to_dict = some m ∧
    Conn.TableMetadata.from_dict t.to_dict = t := by
  constructor
  · simp [Conn.FileMetadata.to_dict, Conn.FileMetadata.from_dict,
      Conn.FileType.ofValue_value, Conn.fromisoformat_isoformat m.last_modified h]
  · rfl

/-- Witness for **C9** at a concrete file and table metadata value. -/
theorem metadata_dict_roundtrip_witness :
    Conn.FileMetadata.from_dict (Conn.FileMetadata.to_dict
      { id := "local_77_1700000000", name := "a.txt", path := "/data/a.txt",
        size := 10, type := .TEXT, last_modified := ⟨2024, 3, 7, 9, 5, 30, 123⟩,
        source := "LocalFileConnector",
        additional_metadata := [("relative_path", .s "a.txt"), ("is_directory", .b false)],
        checksum := some "d41d8cd9" }) = some
      { id := "local_77_1700000000", name := "a.txt", path := "/data/a.txt",
        size := 10, type := .TEXT, last_modified := ⟨2024, 3, 7, 9, 5, 30, 123⟩,
        source := "LocalFileConnector",
        additional_metadata := [("relative_path", .s "a.txt"), ("is_directory", .b false)],
        checksum := some "d41d8cd9" } ∧
    Conn.TableMetadata.from_dict (Conn.TableMetadata.to_dict
      { id := "public.orders", name := "orders", schema := "public",
        source := "SQLConnector", last_processed_key := some (.intKey 1000),
        columns := ["order_id", "amount"], row_count := some 5,
        additional_metadata := [("primary_key_columns", .sl ["order_id"])] }) =
      { id := "public.orders", name := "orders", schema := "public",
        source := "SQLConnector", last_processed_key := some (.intKey 1000),
        columns := ["order_id", "amount"], row_count := some 5,
        additional_metadata := [("primary_key_columns", .sl ["order_id"])] } :=
  metadata_dict_roundtrip _ _ (by decide)
namespace Conn

theorem mem_orderedInsert {a x : SqlRow} {l : List SqlRow} :
    a ∈ orderedInsert x l ↔ a = x ∨ a ∈ l := by
  induction l with
  | nil => simp [orderedInsert]
  | cons r rest ih =>
      by_cases h : x.key ≤ r.key
      · simp [orderedInsert, h]
      · simp [orderedInsert, h, ih]
        tauto

theorem sorted_orderedInsert (x : SqlRow) (l : List SqlRow)
    (h : l.Sorted rowLE) : (orderedInsert x l).Sorted rowLE := by
  induction l with
  | nil => simp [orderedInsert, List.Sorted]
  | cons r rest ih =>
      rw [List.sorted_cons] at h
      by_cases hx : x.key ≤ r.key
      · simp only [orderedInsert, if_pos hx]
        rw [List.sorted_cons]
        refine ⟨?_, ?_⟩
        · intro b hb
          rcases List.mem_cons.mp hb with hb | hb
          · exact hb ▸ hx
          · exact le_trans hx (h.1 b hb)
        · rw [List.sorted_cons]
          exact h
      · simp only [orderedInsert, if_neg hx]
        rw [List.sorted_cons]
        refine ⟨?_, ih h.2⟩
        intro b hb
        rcases mem_orderedInsert.mp hb with hb | hb
        · exact hb ▸ le_of_lt (lt_of_not_le hx)
        · exact h.1 b hb

theorem sorted_orderByKey (l : List SqlRow) : (orderByKey l).Sorted rowLE := by
  induction l with
  | nil => simp [orderByKey, List.Sorted]
  | cons r rest ih => exact sorted_orderedInsert r _ ih

theorem sorted_sqlQuery (tbl : List SqlRow) (c : Option Int) (b : Nat) :
    (sqlQuery tbl c b).Sorted rowLE := by
  unfold sqlQuery
  exact List.Pairwise.sublist (List.take_sublist _ _) (sorted_orderByKey _)

theorem key_le_getLast_of_sorted :
    ∀ (l : List SqlRow) (hl : l ≠ []), l.Sorted rowLE →
      ∀ x ∈ l, x.key ≤ (l.getLast hl).key := by
  intro l
  induction l with
  | nil => intro hl; cases hl rfl
  | cons r rest ih =>
      intro _ h x hx
      rw [List.sorted_cons] at h
      cases rest with
      | nil =>
          rcases List.mem_cons.mp hx with hx | hx
          · simp [hx, List.getLast]
          · cases hx
      | cons r' rest' =>
          have hlast : (r :: r' :: rest').getLast (by simp) =
              (r' :: rest').getLast (by simp) := by
            simp [List.getLast]
          rw [hlast]
          rcases List.mem_cons.mp hx with hx | hx
          · subst hx
            exact le_trans (h.1 r' (by simp))
              (ih (by simp) h.2 r' (by simp))
          · exact ih (by simp) h.2 x hx

end Conn

/-- **C8**: for every table and every non-empty batch returned by the SQL
incremental fetch (rows with `incremental_col > last_cursor`, ordered by the
incremental column, limited to `batch_size`), the cursor value returned
alongside the batch equals the maximum value of the incremental column over
the rows of the batch (it is attained in the batch and bounds every row). -/
theorem get_new_rows_cursor_is_max (tbl : List Conn.SqlRow)
    (last_cursor : Option Int) (batch_size : Nat)
    (h : (Conn.get_new_rows tbl last_cursor batch_size).1 ≠ []) :
    ∃ m : Int, (Conn.get_new_rows tbl last_cursor batch_size).2 = some m ∧
      m ∈ (Conn.get_new_rows tbl last_cursor batch_size).1.map Conn.SqlRow.key ∧
      ∀ r ∈ (Conn.get_new_rows tbl last_cursor batch_size).1, r.key ≤ m := by
  have hrows : (Conn.get_new_rows tbl last_cursor batch_size).1 =
      Conn.sqlQuery tbl last_cursor batch_size := rfl
  rw [hrows] at h
  refine ⟨((Conn.sqlQuery tbl last_cursor batch_size).getLast h).key, ?_, ?_, ?_⟩
  · show (Conn.sqlQuery tbl last_cursor batch_size).getLast?.map Conn.SqlRow.key = _
    rw [List.getLast?_eq_getLast _ h]
    rfl
  · rw [hrows]
    exact List.mem_map_of_mem _ (List.getLast_mem h)
  · rw [hrows]
    exact Conn.key_le_getLast_of_sorted _ h (Conn.sorted_sqlQuery tbl last_cursor batch_size)

/-- Witness for **C8**: a concrete table, cursor 1 and batch size 2; the
batch is `[key 3, key 5]` and the returned cursor is its maximum. -/
theorem get_new_rows_cursor_is_max_witness :
    ∃ m : Int, (Conn.get_new_rows [⟨5, []⟩, ⟨1, []⟩, ⟨9, []⟩, ⟨3, []⟩] (some 1) 2).2 = some m ∧
      m ∈ (Conn.get_new_rows [⟨5, []⟩, ⟨1, []⟩, ⟨9, []⟩, ⟨3, []⟩] (some 1) 2).1.map Conn.SqlRow.key ∧
      ∀ r ∈ (Conn.get_new_rows [⟨5, []⟩, ⟨1, []⟩, ⟨9, []⟩, ⟨3, []⟩] (some 1) 2).1, r.key ≤ m :=
  get_new_rows_cursor_is_max _ _ _ (by decide)
namespace PipelineSM

theorem countStages_spec (L : List String) (stages : List (String × StageInfo)) :
    countStages L stages =
      ((L.takeWhile (stageOk stages)).length,
        (L.drop (L.takeWhile (stageOk stages)).length).head?.bind
          (fun s => if (lookupA stages s).isSome then some s else none)) := by
  induction L with
  | nil => rfl
  | cons s rest ih =>
      cases hl : lookupA stages s with
      | none =>
          have hok : stageOk stages s = false := by simp [stageOk, hl]
          simp [countStages, hl, List.takeWhile_cons, hok]
      | some info =>
          have hok : stageOk stages s = info.success := by simp [stageOk, hl]
          cases hs : info.success with
          | false =>
              simp [countStages, hl, List.takeWhile_cons, hok, hs]
          | true =>
              simp [countStages, hl, List.takeWhile_cons, hok, hs, ih]

end PipelineSM

/-- **C4**: for every recorded file state, `get_file_progress` counts
completed stages by walking the expected stage sequence strictly in order
from the first stage: `completed_stages` is the length of the leading
all-success prefix of the expected sequence (so a success recorded after a
gap or failure never contributes); if the first non-success stage is
recorded at all (i.e. failed), the status is `failed_at_<that stage>`;
otherwise the status carries no failure and is determined by the count
alone. -/
theorem get_file_progress_walks_in_order (st : PipelineSM.PState) (fid : String)
    (e : PipelineSM.PEntry) (h : lookupA st fid = some e) :
    (PipelineSM.get_file_progress st fid).completed_stages =
      some (PipelineSM.seqCompleted e.stages) ∧
    (∀ s, PipelineSM.firstPending e.stages = some s → (lookupA e.stages s).isSome →
      (PipelineSM.get_file_progress st fid).status = "failed_at_" ++ s) ∧
    ((∀ s, PipelineSM.firstPending e.stages = some s → lookupA e.stages s = none) →
      (PipelineSM.get_file_progress st fid).status =
        (if PipelineSM.seqCompleted e.stages = PipelineSM.expected_stages.length
         then "completed"
         else if PipelineSM.seqCompleted e.stages = 0 then "not_started"
         else "in_progress")) := by
  have hunf : PipelineSM.get_file_progress st fid =
      { file_id := fid,
        status :=
          match (PipelineSM.countStages PipelineSM.expected_stages e.stages).2 with
          | some s => "failed_at_" ++ s
          | none =>
              if (PipelineSM.countStages PipelineSM.expected_stages e.stages).1 =
                  PipelineSM.expected_stages.length then "completed"
              else if (PipelineSM.countStages PipelineSM.expected_stages e.stages).1 = 0
                then "not_started"
              else "in_progress",
        progress := (((PipelineSM.countStages PipelineSM.expected_stages e.stages).1 : ℚ) /
          (PipelineSM.expected_stages.length : ℚ)) * 100,
        completed_stages := some (PipelineSM.countStages PipelineSM.expected_stages e.stages).1,
        total_stages := some PipelineSM.expected_stages.length } := by
    simp [PipelineSM.get_file_progress, PipelineSM.get_file_state, h]
  rw [hunf, PipelineSM.countStages_spec]
  refine ⟨rfl, ?_, ?_⟩
  · intro s hs hsome
    simp only [PipelineSM.firstPending, PipelineSM.seqCompleted] at hs
    simp [hs, Option.bind, hsome]
  · intro hall
    cases hp : PipelineSM.firstPending e.stages with
    | none =>
        simp only [PipelineSM.firstPending, PipelineSM.seqCompleted] at hp
        simp [hp, PipelineSM.seqCompleted]
    | some s =>
        have hnone := hall s hp
        simp only [PipelineSM.firstPending, PipelineSM.seqCompleted] at hp
        simp [hp, hnone, PipelineSM.seqCompleted]

/-- Witness for **C4**: a file recorded as `read: success, processed: failed,
embedded: success`; the walk counts one completed stage, reports
`failed_at_processed`, and the later `embedded` success does not count. -/
theorem get_file_progress_walks_in_order_witness :
    (PipelineSM.get_file_progress exStateC4 "f").completed_stages =
      some (PipelineSM.seqCompleted exStagesC4) ∧
    (∀ s, PipelineSM.firstPending exStagesC4 = some s →
      (lookupA exStagesC4 s).isSome →
      (PipelineSM.get_file_progress exStateC4 "f").status = "failed_at_" ++ s) ∧
    ((∀ s, PipelineSM.firstPending exStagesC4 = some s → lookupA exStagesC4 s = none) →
      (PipelineSM.get_file_progress exStateC4 "f").status =
        (if PipelineSM.seqCompleted exStagesC4 = PipelineSM.expected_stages.length
         then "completed"
         else if PipelineSM.seqCompleted exStagesC4 = 0 then "not_started"
         else "in_progress")) :=
  get_file_progress_walks_in_order exStateC4 "f" { started_at := some 0, stages := exStagesC4 }
    (by decide)
/-- **C3** counterexample: for the concrete file whose recorded stage results
are exactly `read: success` and `chunk: success`, `get_file_progress` does
*not* return `completed_stages = 2` with `progress = 50`: the expected stage
sequence is the five stages `read, processed, chunked, embedded, loaded`, so
the walk stops at the unrecorded `processed` and reports `completed_stages =
1`, `progress = 20`, `status = "in_progress"`. -/
theorem get_file_progress_read_chunk_counterexample :
    (PipelineSM.get_file_progress exStateC3 "f").completed_stages = some 1 ∧
    (PipelineSM.get_file_progress exStateC3 "f").progress = 20 ∧
    (PipelineSM.get_file_progress exStateC3 "f").status = "in_progress" ∧
    ¬((PipelineSM.get_file_progress exStateC3 "f").completed_stages = some 2 ∧
      (PipelineSM.get_file_progress exStateC3 "f").progress = 50) := by
  have h : PipelineSM.get_file_progress exStateC3 "f" =
      { file_id := "f", status := "in_progress", progress := (1 : ℚ) / 5 * 100,
        completed_stages := some 1, total_stages := some 5 } := by
    simp [exStateC3, exStagesC3, PipelineSM.get_file_progress,
      PipelineSM.get_file_state, lookupA, PipelineSM.countStages,
      PipelineSM.expected_stages]
  rw [h]
  refine ⟨rfl, by norm_num, rfl, ?_⟩
  rintro ⟨h2, _⟩
  simp at h2

/-- **C3** (amended): for every file whose recorded stage results are exactly
`read: success` and `chunk: success`, `get_file_progress` returns
`completed_stages = 1`, `status = "in_progress"`, and `progress = 20%`
(1 of the 5 expected stages `read, processed, chunked, embedded, loaded`;
`chunk` is not among the expected stage names, and the walk stops at the
unrecorded `processed`). -/
theorem get_file_progress_read_chunk (st : PipelineSM.PState) (fid : String)
    (e : PipelineSM.PEntry) (i1 i2 : PipelineSM.StageInfo)
    (h : lookupA st fid = some e)
    (hstages : e.stages = [("read", i1), ("chunk", i2)])
    (h1 : i1.success = true) (_h2 : i2.success = true) :
    (PipelineSM.get_file_progress st fid).completed_stages = some 1 ∧
    (PipelineSM.get_file_progress st fid).status = "in_progress" ∧
    (PipelineSM.get_file_progress st fid).progress = 20 := by
  have hprog : PipelineSM.get_file_progress st fid =
      { file_id := fid, status := "in_progress", progress := (1 : ℚ) / 5 * 100,
        completed_stages := some 1, total_stages := some 5 } := by
    simp [PipelineSM.get_file_progress, PipelineSM.get_file_state, h,
      PipelineSM.expected_stages, PipelineSM.countStages, hstages, lookupA, h1]
  rw [hprog]
  refine ⟨rfl, rfl, by norm_num⟩

/-- Witness for the amended **C3** at the concrete fixture state. -/
theorem get_file_progress_read_chunk_witness :
    (PipelineSM.get_file_progress exStateC3 "f").completed_stages = some 1 ∧
    (PipelineSM.get_file_progress exStateC3 "f").status = "in_progress" ∧
    (PipelineSM.get_file_progress exStateC3 "f").progress = 20 :=
  get_file_progress_read_chunk exStateC3 "f"
    { started_at := some 0, stages := exStagesC3 } ⟨true, 1, none⟩ ⟨true, 2, none⟩
    (by decide) (by decide) rfl rfl
theorem lookupA_isSome_of_mem_keys {α : Type} (l : List (String × α)) (k : String)
    (h : k ∈ l.map Prod.fst) : lookupA l k ≠ none := by
  induction l with
  | nil => simp at h
  | cons p rest ih =>
      obtain ⟨k0, v0⟩ := p
      by_cases h0 : k0 = k
      · simp [lookupA, h0]
      · simp only [List.map_cons, List.mem_cons] at h
        rcases h with h | h
        · exact absurd h.symm h0
        · simp [lookupA, h0, ih h]

namespace PipelineSM

theorem mark_pipeline_started_eq_append (st : PState) (rid : String) (t : Nat)
    (h : lookupA st "pipeline_metadata" = none) :
    mark_pipeline_started st rid t = st ++ [("pipeline_metadata", pmEntry rid t)] := by
  unfold mark_pipeline_started
  rw [h]
  rw [setA_of_lookupA_none _ _ _ h]
  rfl

theorem get_file_progress_append_of_mem (st : PState) (q : String × PEntry)
    (fid : String) (hfid : lookupA st fid ≠ none) :
    get_file_progress (st ++ [q]) fid = get_file_progress st fid := by
  unfold get_file_progress get_file_state
  rw [lookupA_append_left _ _ _ hfid]

theorem get_file_progress_pm (st : PState) (rid : String) (t : Nat)
    (h : lookupA st "pipeline_metadata" = none) :
    get_file_progress (st ++ [("pipeline_metadata", pmEntry rid t)]) "pipeline_metadata" =
      { file_id := "pipeline_metadata", status := "not_started", progress := 0,
        completed_stages := some 0, total_stages := some 5 } := by
  unfold get_file_progress get_file_state
  rw [lookupA_append_of_none _ _ _ h]
  simp [lookupA, pmEntry, countStages, expected_stages]

end PipelineSM

/-- **C10**: after `mark_pipeline_started` has been called at least once, the
reserved `pipeline_metadata` bookkeeping key lives in the same state mapping
as per-file records, and `get_pipeline_summary` counts it as a file:
`total_files` equals the number of tracked files plus one, the
`pipeline_metadata` entry is counted among `not_started_files` with progress
0, and `overall_progress` is the mean taken over that inflated denominator. -/
theorem pipeline_summary_counts_metadata_as_file (st : PipelineSM.PState)
    (rid : String) (t : Nat) (h : lookupA st "pipeline_metadata" = none) :
    (PipelineSM.get_pipeline_summary (PipelineSM.mark_pipeline_started st rid t)).total_files
      = st.length + 1 ∧
    (PipelineSM.get_file_progress (PipelineSM.mark_pipeline_started st rid t)
        "pipeline_metadata").status = "not_started" ∧
    (PipelineSM.get_file_progress (PipelineSM.mark_pipeline_started st rid t)
        "pipeline_metadata").progress = 0 ∧
    (PipelineSM.get_pipeline_summary (PipelineSM.mark_pipeline_started st rid t)).not_started_files
      = (PipelineSM.get_pipeline_summary st).not_started_files + 1 ∧
    (PipelineSM.get_pipeline_summary (PipelineSM.mark_pipeline_started st rid t)).overall_progress
      = ((st.map (fun p => (PipelineSM.get_file_progress st p.1).progress)).sum) /
          ((st.length : ℚ) + 1) := by
  rw [PipelineSM.mark_pipeline_started_eq_append st rid t h]
  have hinv : ∀ p ∈ st,
      PipelineSM.get_file_progress (st ++ [("pipeline_metadata", PipelineSM.pmEntry rid t)]) p.1
        = PipelineSM.get_file_progress st p.1 := by
    intro p hp
    refine PipelineSM.get_file_progress_append_of_mem st _ p.1 ?_
    exact lookupA_isSome_of_mem_keys st p.1 (List.mem_map_of_mem Prod.fst hp)
  have hpm := PipelineSM.get_file_progress_pm st rid t h
  refine ⟨?_, ?_, ?_, ?_, ?_⟩
  · simp [PipelineSM.get_pipeline_summary]
  · rw [hpm]
  · rw [hpm]
  · simp only [PipelineSM.get_pipeline_summary]
    rw [List.map_append, List.map_congr_left
      (fun p hp => congrArg PipelineSM.FileProgress.status (hinv p hp))]
    simp [hpm, List.filter_append]
  · simp only [PipelineSM.get_pipeline_summary]
    rw [List.map_append, List.map_congr_left
      (fun p hp => congrArg PipelineSM.FileProgress.progress (hinv p hp))]
    simp [hpm, List.sum_append]

/-- Witness for **C10**: a tracker state with one half-processed file; after
`mark_pipeline_started`, the summary reports 2 total files, the
`pipeline_metadata` entry as a `not_started` file with progress 0, and the
mean over the inflated denominator 2. -/
theorem pipeline_summary_counts_metadata_as_file_witness :
    (PipelineSM.get_pipeline_summary
        (PipelineSM.mark_pipeline_started exStateC3 "run_1" 5)).total_files
      = exStateC3.length + 1 ∧
    (PipelineSM.get_file_progress (PipelineSM.mark_pipeline_started exStateC3 "run_1" 5)
        "pipeline_metadata").status = "not_started" ∧
    (PipelineSM.get_file_progress (PipelineSM.mark_pipeline_started exStateC3 "run_1" 5)
        "pipeline_metadata").progress = 0 ∧
    (PipelineSM.get_pipeline_summary (PipelineSM.mark_pipeline_started exStateC3 "run_1" 5)).not_started_files
      = (PipelineSM.get_pipeline_summary exStateC3).not_started_files + 1 ∧
    (PipelineSM.get_pipeline_summary (PipelineSM.mark_pipeline_started exStateC3 "run_1" 5)).overall_progress
      = ((exStateC3.map (fun p => (PipelineSM.get_file_progress exStateC3 p.1).progress)).sum) /
          ((exStateC3.length : ℚ) + 1) :=
  pipeline_summary_counts_metadata_as_file exStateC3 "run_1" 5 (by decide)
namespace Orch

theorem Item.id_to_dict (it : Item) : it.to_dict.id = it.id := by
  cases it <;> rfl

end Orch

/-- **C5** counterexample: `scan_and_queue` dedups only against the entries
already in the queue, not within the scanned batch: enqueueing a scan result
that contains two items with the same id `"dup"` into the empty queue yields
a queue with two entries for `"dup"`, violating the at-most-one-entry-per-id
invariant as claimed. -/
theorem scan_and_queue_dup_batch_counterexample :
    ((Orch.scan_and_queue [] [exItemC5, exItemC5]).1.map Orch.QEntry.id) = ["dup", "dup"] ∧
    ¬((Orch.scan_and_queue [] [exItemC5, exItemC5]).1.map Orch.QEntry.id).Nodup := by
  decide

/-- **C5** (amended): `scan_and_queue` keeps the queue free of duplicate ids
against the *existing* queue contents: if the queue has no two entries with
equal id and the scanned items have pairwise distinct ids, the resulting
queue has no two entries with equal id; moreover a repeated
`scan_and_queue` call with the same scan result adds nothing. A scan batch
that itself contains two items with the same id is *not* deduplicated. -/
theorem scan_and_queue_nodup (queue : List Orch.QEntry) (items : List Orch.Item)
    (hq : (queue.map Orch.QEntry.id).Nodup)
    (hi : (items.map Orch.Item.id).Nodup) :
    ((Orch.scan_and_queue queue items).1.map Orch.QEntry.id).Nodup ∧
    (Orch.scan_and_queue (Orch.scan_and_queue queue items).1 items).1
      = (Orch.scan_and_queue queue items).1 := by
  have hres : (Orch.scan_and_queue queue items).1 =
      queue ++ (items.filter
        (fun item => item.id ∉ queue.map Orch.QEntry.id)).map Orch.Item.to_dict := rfl
  have hids : ((items.filter
      (fun item => item.id ∉ queue.map Orch.QEntry.id)).map Orch.Item.to_dict).map
        Orch.QEntry.id =
      (items.filter (fun item => item.id ∉ queue.map Orch.QEntry.id)).map Orch.Item.id := by
    rw [List.map_map]
    exact List.map_congr_left (fun it _ => Orch.Item.id_to_dict it)
  constructor
  · rw [hres, List.map_append, hids]
    refine List.Nodup.append hq ?_ ?_
    · exact ((List.filter_sublist items).map Orch.Item.id).nodup hi
    · intro a ha hb
      obtain ⟨it, hit, rfl⟩ := List.mem_map.mp hb
      have := (List.mem_filter.mp hit).2
      simp only [decide_not, Bool.not_eq_true', decide_eq_false_iff_not] at this
      exact this ha
  · have hall : ∀ it ∈ items,
        it.id ∈ ((Orch.scan_and_queue queue items).1.map Orch.QEntry.id) := by
      intro it hit
      rw [hres, List.map_append, hids]
      by_cases hmem : it.id ∈ queue.map Orch.QEntry.id
      · exact List.mem_append_left _ hmem
      · refine List.mem_append_right _ ?_
        refine List.mem_map_of_mem Orch.Item.id ?_
        refine List.mem_filter.mpr ⟨hit, ?_⟩
        simpa using hmem
    show (Orch.scan_and_queue queue items).1 ++ _ = (Orch.scan_and_queue queue items).1
    have hfilter : items.filter
        (fun it => it.id ∉ (Orch.scan_and_queue queue items).1.map Orch.QEntry.id) = [] := by
      refine List.filter_eq_nil_iff.mpr ?_
      intro it hit
      simpa using hall it hit
    rw [hfilter]
    simp

/-- Witness for the amended **C5**: one fresh item enqueued into a queue
already holding a distinct id stays deduplicated, and re-enqueueing the same
scan result changes nothing. -/
theorem scan_and_queue_nodup_witness :
    ((Orch.scan_and_queue [Orch.Item.to_dict exItemC5] [exItemC8]).1.map Orch.QEntry.id).Nodup ∧
    (Orch.scan_and_queue (Orch.scan_and_queue [Orch.Item.to_dict exItemC5] [exItemC8]).1
      [exItemC8]).1 = (Orch.scan_and_queue [Orch.Item.to_dict exItemC5] [exItemC8]).1 :=
  scan_and_queue_nodup [Orch.Item.to_dict exItemC5] [exItemC8] (by decide) (by decide)
/-- **C1** counterexample: a queue holding the single entry with id `"dup"`
whose `source` is `"LocalFileConnector"`, which resolves to connector name
`"localfile"` — not registered (the registry key is `"local_file"`). The
claim says `mark_as_processed("dup")` leaves the queue entry present and
unchanged; the code removes it: afterwards the queue is empty and no entry
with id `"dup"` remains, while the failure is only reported as a warning. -/
theorem mark_as_processed_unregistered_counterexample :
    (Orch.mark_as_processed exOrchC1 "dup" none 0).1.queue = [] ∧
    (Orch.mark_as_processed exOrchC1 "dup" none 0).1.queue ≠ exOrchC1.queue ∧
    (∀ e ∈ (Orch.mark_as_processed exOrchC1 "dup" none 0).1.queue,
      Orch.QEntry.id e ≠ "dup") ∧
    (Orch.mark_as_processed exOrchC1 "dup" none 0).2 =
      ["warning: Source connector 'localfile' not found for item dup"] := by
  decide

/-- **C1** (amended): for every queue containing an entry with id X whose
source resolves to a connector that is not registered, the Orchestrator's
`mark_as_processed(X)` reports a non-fatal "source unavailable" warning and
returns normally, but it removes the queue entry for X *before* resolving
the connector: the resulting state is the input state with the first entry
for X popped from the queue (connectors untouched), so the operation is not
atomic on error and the entry is not retryable from the queue. -/
theorem mark_as_processed_unregistered_removes_entry (st : Orch.OrchState)
    (item_id : String) (last_key : Option Conn.SqlKey) (now : Nat)
    (entry : Orch.QEntry) (queue' : List Orch.QEntry)
    (hpop : Orch.popFirst st.queue item_id = some (entry, queue'))
    (hsrc : entry.source ≠ "")
    (hconn : lookupA st.connectors (Orch.resolveName entry.source) = none) :
    Orch.mark_as_processed st item_id last_key now =
      ({ st with queue := queue' },
       ["warning: Source connector '" ++ Orch.resolveName entry.source ++
        "' not found for item " ++ item_id]) := by
  unfold Orch.mark_as_processed
  rw [hpop]
  simp [hsrc, hconn]

/-- Witness for the amended **C1** at the concrete one-entry queue. -/
theorem mark_as_processed_unregistered_removes_entry_witness :
    Orch.mark_as_processed exOrchC1 "dup" none 0 =
      ({ exOrchC1 with queue := [] },
       ["warning: Source connector '" ++
        Orch.resolveName (Orch.QEntry.source (Orch.Item.to_dict exItemC5)) ++
        "' not found for item " ++ "dup"]) :=
  mark_as_processed_unregistered_removes_entry exOrchC1 "dup" none 0
    (Orch.Item.to_dict exItemC5) [] (by decide) (by decide) (by decide)
namespace LedgerSM

theorem is_item_processed_mark_self (st : MState) (s i : String)
    (m : Option (List (String × String))) (t : Nat) :
    is_item_processed (mark_item_processed st s i m t) s i = true := by
  unfold is_item_processed mark_item_processed
  simp [lookupA_setA_self]

theorem is_item_processed_mark_mono (st : MState) (s' i' s i : String)
    (m : Option (List (String × String))) (t : Nat)
    (h : is_item_processed st s i = true) :
    is_item_processed (mark_item_processed st s' i' m t) s i = true := by
  unfold is_item_processed at h ⊢
  unfold mark_item_processed
  by_cases hs : s' = s
  · subst hs
    cases hl : lookupA st.processed_items s' with
    | none => rw [hl] at h; cases h
    | some inner =>
        rw [hl] at h
        simp only [hl, lookupA_setA_self]
        by_cases hi : i' = i
        · subst hi; simp [lookupA_setA_self]
        · rw [lookupA_setA_ne _ _ _ _ hi]
          exact h
  · simp only [lookupA_setA_ne _ _ _ _ hs]
    exact h

theorem is_item_processed_update_last_run (st : MState) (t : Nat) (s i : String) :
    is_item_processed (update_last_run_time st t) s i = is_item_processed st s i := rfl

end LedgerSM

namespace MgrCM

theorem is_item_processed_mark_documents_mono (docs : List MDoc) :
    ∀ (st : LedgerSM.MState) (t : Nat) (s i : String),
      LedgerSM.is_item_processed st s i = true →
      LedgerSM.is_item_processed (mark_documents_processed st docs t) s i = true := by
  induction docs with
  | nil => intro st t s i h; exact h
  | cons d rest ih =>
      intro st t s i h
      unfold mark_documents_processed
      simp only [List.foldl_cons]
      cases lookupA d.metadata "source" with
      | none => exact ih st t s i h
      | some src =>
          cases lookupA d.metadata "item_id" with
          | none => exact ih st t s i h
          | some iid =>
              exact ih _ t s i (LedgerSM.is_item_processed_mark_mono st src iid s i none t h)

theorem is_item_processed_mark_documents (docs : List MDoc) :
    ∀ (st : LedgerSM.MState) (t : Nat) (d : MDoc), d ∈ docs →
      ∀ (src iid : String),
        lookupA d.metadata "source" = some src →
        lookupA d.metadata "item_id" = some iid →
        LedgerSM.is_item_processed (mark_documents_processed st docs t) src iid = true := by
  induction docs with
  | nil => intro st t d hd; cases hd
  | cons d0 rest ih =>
      intro st t d hd src iid hsrc hiid
      rcases List.mem_cons.mp hd with hd | hd
      · subst hd
        unfold mark_documents_processed
        simp only [List.foldl_cons, hsrc, hiid]
        exact is_item_processed_mark_documents_mono rest _ t src iid
          (LedgerSM.is_item_processed_mark_self st src iid none t)
      · unfold mark_documents_processed
        simp only [List.foldl_cons]
        cases lookupA d0.metadata "source" with
        | none => exact ih st t d hd src iid hsrc hiid
        | some src0 =>
            cases lookupA d0.metadata "item_id" with
            | none => exact ih st t d hd src iid hsrc hiid
            | some iid0 => exact ih _ t d hd src iid hsrc hiid

end MgrCM

/-- **C2** counterexample: one registered `local_filesystem` connector whose
scan returns a single fresh document; `extract_all` returns it *and* marks
it processed in the Ledger in the same call, with no consumer confirmation:
the Ledger's processed-item set is not left unchanged by the scan/extract
cycle. -/
theorem extract_all_marks_during_extraction_counterexample :
    LedgerSM.is_item_processed LedgerSM.initState "local_filesystem" "h1" = false ∧
    (MgrCM.extract_all LedgerSM.initState
        [{ name := "local_filesystem", docs := [exDocC2] }] 7).1 ≠ [] ∧
    LedgerSM.is_item_processed
      (MgrCM.extract_all LedgerSM.initState
        [{ name := "local_filesystem", docs := [exDocC2] }] 7).2
      "local_filesystem" "h1" = true := by
  decide

/-- **C2** (amended): during `extract_all` itself — immediately after
extraction and before any consumer confirmation — every returned document
carrying `source` and `item_id` metadata is already marked processed in the
Ledger of the state `extract_all` leaves behind (speculative marking, not
at-most-once hand-off). -/
theorem extract_all_marks_extracted_documents (st : LedgerSM.MState)
    (connectors : List MgrCM.MConn) (now : Nat) (d : MgrCM.MDoc)
    (hd : d ∈ (MgrCM.extract_all st connectors now).1) (src iid : String)
    (hsrc : lookupA d.metadata "source" = some src)
    (hiid : lookupA d.metadata "item_id" = some iid) :
    LedgerSM.is_item_processed (MgrCM.extract_all st connectors now).2 src iid = true := by
  unfold MgrCM.extract_all at hd ⊢
  set all := connectors.foldl (fun acc c => acc ++ MgrCM.extractFrom st c) [] with hall
  by_cases hempty : all.isEmpty
  · rw [if_pos hempty] at hd
    rw [List.isEmpty_iff] at hempty
    rw [hempty] at hd
    cases hd
  · rw [if_neg hempty] at hd ⊢
    rw [LedgerSM.is_item_processed_update_last_run]
    exact MgrCM.is_item_processed_mark_documents all st now d hd src iid hsrc hiid

/-- Witness for the amended **C2**: the document extracted in the concrete
run above is marked in the Ledger the call returns. -/
theorem extract_all_marks_extracted_documents_witness :
    LedgerSM.is_item_processed
      (MgrCM.extract_all LedgerSM.initState
        [{ name := "local_filesystem", docs := [exDocC2] }] 7).2
      "local_filesystem" "h1" = true :=
  extract_all_marks_extracted_documents LedgerSM.initState
    [{ name := "local_filesystem", docs := [exDocC2] }] 7
    { content := "x",
      metadata := [("hash", "h1"), ("source", "local_filesystem"), ("item_id", "h1")] }
    (by decide) "local_filesystem" "h1" (by decide) (by decide)
theorem countP_key_eq_zero_of_not_mem {α : Type} (l : List (String × α)) (k : String)
    (h : k ∉ l.map Prod.fst) : l.countP (fun p => p.1 == k) = 0 := by
  refine List.countP_eq_zero.mpr ?_
  intro p hp
  simp only [beq_iff_eq]
  intro hk
  exact h (hk ▸ List.mem_map_of_mem Prod.fst hp)

theorem countP_setA_eq_one {α : Type} (l : List (String × α)) (k : String) (v : α)
    (h : (l.map Prod.fst).Nodup) :
    (setA l k v).countP (fun p => p.1 == k) = 1 := by
  induction l with
  | nil => simp [setA]
  | cons p rest ih =>
      obtain ⟨k0, v0⟩ := p
      simp only [List.map_cons, List.nodup_cons] at h
      by_cases h0 : k0 = k
      · subst h0
        simp only [setA, if_pos rfl, if_true]
        rw [List.countP_cons]
        simp [countP_key_eq_zero_of_not_mem rest k0 h.1]
      · simp only [setA, if_neg h0]
        rw [List.countP_cons]
        simp [h0, ih h.2]

theorem mem_setA {α : Type} {q : String × α} {l : List (String × α)} {k : String} {v : α}
    (h : q ∈ setA l k v) : q ∈ l ∨ q = (k, v) := by
  induction l with
  | nil => simp [setA] at h; exact Or.inr h
  | cons p rest ih =>
      obtain ⟨k0, v0⟩ := p
      by_cases h0 : k0 = k
      · subst h0
        simp only [setA, if_pos rfl, if_true] at h
        rcases List.mem_cons.mp h with h | h
        · exact Or.inr h
        · exact Or.inl (List.mem_cons_of_mem _ h)
      · simp only [setA, if_neg h0] at h
        rcases List.mem_cons.mp h with h | h
        · exact Or.inl (h ▸ List.mem_cons_self _ _)
        · rcases ih h with hh | hh
          · exact Or.inl (List.mem_cons_of_mem _ hh)
          · exact Or.inr hh

theorem map_fst_setA_nodup {α : Type} (l : List (String × α)) (k : String) (v : α)
    (h : (l.map Prod.fst).Nodup) : ((setA l k v).map Prod.fst).Nodup := by
  induction l with
  | nil => simp [setA]
  | cons p rest ih =>
      obtain ⟨k0, v0⟩ := p
      simp only [List.map_cons, List.nodup_cons] at h
      by_cases h0 : k0 = k
      · subst h0
        simp only [setA, if_pos rfl, if_true, List.map_cons, List.nodup_cons]
        exact h
      · simp only [setA, if_neg h0, List.map_cons, List.nodup_cons]
        refine ⟨?_, ih h.2⟩
        intro hk
        rcases List.mem_map.mp hk with ⟨q, hq, hqk⟩
        rcases mem_setA hq with hmem | hkey
        · exact h.1 (hqk ▸ List.mem_map_of_mem Prod.fst hmem)
        · rw [hkey] at hqk
          exact h0 hqk.symm
/-- **C6** counterexample: marking the same `(source, id)` twice at times 0
and then 1 overwrites the stored `first_processed` timestamp: after the
second call it equals 1, not the 0 stored by the first call, refuting the
claim that the second call leaves the first-processed timestamp unchanged. -/
theorem mark_item_processed_twice_counterexample :
    lookupA ((lookupA (LedgerSM.mark_item_processed LedgerSM.initState
        "local_filesystem" "i1" none 0).processed_items "local_filesystem").getD [])
      "i1" = some { first_processed := 0, metadata := [] } ∧
    lookupA ((lookupA (LedgerSM.mark_item_processed
        (LedgerSM.mark_item_processed LedgerSM.initState "local_filesystem" "i1" none 0)
        "local_filesystem" "i1" none 1).processed_items "local_filesystem").getD [])
      "i1" = some { first_processed := 1, metadata := [] } ∧
    (1 : Nat) ≠ 0 := by
  decide

/-- **C6** (amended): calling `mark_item_processed(source, id)` twice never
raises (the function is total) and leaves exactly one ledger entry for
`(source, id)`, but the stored `first_processed` timestamp is overwritten by
every call: after the second call it is the second call's time, not the
first call's. The set-based connector ledger (`LocalFileConnector.
mark_as_processed`) is by contrast fully idempotent. -/
theorem mark_item_processed_twice (st : LedgerSM.MState) (s i : String)
    (m1 m2 : Option (List (String × String))) (t1 t2 : Nat)
    (hWF : ((((lookupA st.processed_items s).getD []).map Prod.fst)).Nodup) :
    ((lookupA (LedgerSM.mark_item_processed
        (LedgerSM.mark_item_processed st s i m1 t1) s i m2 t2).processed_items s).getD
      []).countP (fun p => p.1 == i) = 1 ∧
    lookupA ((lookupA (LedgerSM.mark_item_processed
        (LedgerSM.mark_item_processed st s i m1 t1) s i m2 t2).processed_items s).getD [])
      i = some { first_processed := t2, metadata := m2.getD [] } ∧
    (∀ (L : Conn.LocalLedger) (x : String),
      Conn.localMarkAsProcessed (Conn.localMarkAsProcessed L x) x =
        Conn.localMarkAsProcessed L x) := by
  have hstep : ∀ (st' : LedgerSM.MState) (m : Option (List (String × String))) (t : Nat),
      lookupA (LedgerSM.mark_item_processed st' s i m t).processed_items s =
        some (setA ((lookupA st'.processed_items s).getD [])
          i { first_processed := t, metadata := m.getD [] }) := by
    intro st' m t
    unfold LedgerSM.mark_item_processed
    cases hl : lookupA st'.processed_items s <;>
      simp [hl, lookupA_setA_self]
  refine ⟨?_, ?_, ?_⟩
  · rw [hstep, Option.getD_some, hstep, Option.getD_some]
    exact countP_setA_eq_one _ i _ (map_fst_setA_nodup _ i _ hWF)
  · rw [hstep, Option.getD_some, hstep, Option.getD_some]
    exact lookupA_setA_self _ i _
  · intro L x
    unfold Conn.localMarkAsProcessed
    by_cases hx : x ∈ L
    · simp [hx]
    · simp [hx]

/-- Witness for the amended **C6** at source `"local_filesystem"`, id
`"i1"`, times 0 and 1, over the freshly initialized ledger. -/
theorem mark_item_processed_twice_witness :
    ((lookupA (LedgerSM.mark_item_processed
        (LedgerSM.mark_item_processed LedgerSM.initState "local_filesystem" "i1" none 0)
        "local_filesystem" "i1" none 1).processed_items "local_filesystem").getD
      []).countP (fun p => p.1 == "i1") = 1 ∧
    lookupA ((lookupA (LedgerSM.mark_item_processed
        (LedgerSM.mark_item_processed LedgerSM.initState "local_filesystem" "i1" none 0)
        "local_filesystem" "i1" none 1).processed_items "local_filesystem").getD [])
      "i1" = some { first_processed := 1, metadata := [] } ∧
    (∀ (L : Conn.LocalLedger) (x : String),
      Conn.localMarkAsProcessed (Conn.localMarkAsProcessed L x) x =
        Conn.localMarkAsProcessed L x) :=
  mark_item_processed_twice LedgerSM.initState "local_filesystem" "i1" none none 0 1
    (by decide)
/-- **C7** counterexample: the processed-item ledger of
`managers/stateManager.py` wraps no `try/except` around `json.load`; loading
an existing-but-corrupt backing file propagates the parse exception instead
of reinitializing to the empty state, refuting "loading does not raise" for
that store. -/
theorem ledger_load_state_corrupt_counterexample :
    LedgerSM.load_state Conn.FileState.corrupt =
      Except.error "json.JSONDecodeError" := rfl

/-- **C7** (amended): at startup the stage-tracker state, the local-file
connector ledger and the orchestrator queue never raise on load — a
present-but-corrupt backing file reinitializes each to its empty state, and
a readable file loads its payload — but `managers/stateManager.py`'s
`_load_state` has no error handling: on a corrupt file it propagates the
JSON parse exception (only a missing file falls back to the initial
state). -/
theorem persisted_store_load_recovery :
    (∀ v, PipelineSM.load_state (Conn.FileState.ok v) = v) ∧
    PipelineSM.load_state Conn.FileState.corrupt = [] ∧
    PipelineSM.load_state Conn.FileState.absent = [] ∧
    (∀ v, Conn.localLoadProcessedFiles (Conn.FileState.ok v) = v) ∧
    Conn.localLoadProcessedFiles Conn.FileState.corrupt = [] ∧
    Conn.localLoadProcessedFiles Conn.FileState.absent = [] ∧
    (∀ v, Orch.load_queue (Conn.FileState.ok v) = v) ∧
    Orch.load_queue Conn.FileState.corrupt = [] ∧
    Orch.load_queue Conn.FileState.absent = [] ∧
    (∀ v, LedgerSM.load_state (Conn.FileState.ok v) = Except.ok v) ∧
    LedgerSM.load_state Conn.FileState.absent = Except.ok LedgerSM.initState ∧
    (∃ e, LedgerSM.load_state Conn.FileState.corrupt = Except.error e) :=
  ⟨fun _ => rfl, rfl, rfl, fun _ => rfl, rfl, rfl, fun _ => rfl, rfl, rfl,
   fun _ => rfl, rfl, ⟨"json.JSONDecodeError", rfl⟩⟩
